import Mathlib

/-!
Shallow embedding of the HouseX training script (train.py) and verification of
its specification claims.  Pure data-pipeline functions become Lean functions;
fallible code returns `Option` / `Except`; real-valued losses are modelled as
rationals; the deep-learning runtime (model forward, backward, SGD update,
image decoding, torchvision transforms, torch RNG) is abstracted by explicit
function parameters, while every piece of control flow of the script itself is
translated from the source.
-/

namespace HouseX

/-- Does one list start with another?  Bool-valued helper for substring tests. -/
def listStarts {α : Type} [DecidableEq α] : List α → List α → Bool
  | [], _ => true
  | _ :: _, [] => false
  | a :: as, b :: bs => a = b && listStarts as bs

/-- Containment of a contiguous sublist; models the Python `in` operator on strings. -/
def hasSub {α : Type} [DecidableEq α] (sub : List α) : List α → Bool
  | [] => sub.isEmpty
  | a :: l => listStarts sub (a :: l) || hasSub sub l

/-- Python `sub in s` on strings. -/
def strIn (sub s : String) : Bool := hasSub sub.toList s.toList

/-- Split a character list at a separator character; models Python `str.split(sep)`
for a one-character separator (both separators used by train.py, '/' and '_',
are one character). -/
def splitOnChar (c : Char) : List Char → List (List Char)
  | [] => [[]]
  | a :: rest =>
      let r := splitOnChar c rest
      if a = c then [] :: r
      else
        match r with
        | [] => [[a]]
        | h :: t => (a :: h) :: t

/-- Python `list.index` returning the position of the first match; `none` models
the ValueError raised when the element is absent. -/
def pyIndex {α : Type} [DecidableEq α] (x : α) : List α → Option Nat
  | [] => none
  | a :: l => if a = x then some 0 else (pyIndex x l).map (· + 1)

/-- The four genre names, from `song_types` in train.py. -/
def song_types : List String := ["future house", "bass house", "progressive house", "melodic house"]

/-- train.py line 28: `SEED = 0`. -/
def SEED : Nat := 0

/-- train.py line 33: `EPOCHS = 20`. -/
def EPOCHS : Nat := 20

/-- train.py line 34: `LR = 2e-3`. -/
def LR : ℚ := 2 / 1000

/-- train.py line 35: `BATCH_SIZE = 4`. -/
def BATCH_SIZE : Nat := 4

/-- The label-deriving expression of get_tensors, line 48:
`img.split('/')[-1].split("_")[0]`. -/
def songTypeOf (img : String) : String :=
  String.mk ((splitOnChar '_' ((splitOnChar '/' img.toList).getLastD [])).headD [])

/-- The external world seen by the script: `os.listdir`, image decoding
(`Image.open(...).convert('RGB')`), and the values that vary between runs
(`time.time()` and `date.today()`, used only for the log-directory name). -/
structure Env (RawImg : Type) where
  listing : String → List String
  openImage : String → RawImg
  sysTime : ℚ
  today : String

/-- Simplified `os.path.join` for the uses in this script. -/
def osPathJoin (a b : String) : String :=
  if listStarts ['/'] a.toList.reverse then a ++ b else a ++ "/" ++ b

/-- Value of `transform(Image.open(img_path).convert('RGB'))` for a directory
entry `img`, with `img_path = spec_dir + '/' + img` (train.py lines 50-51). -/
def imgVal {RawImg Tensor : Type} (transform : RawImg → Tensor) (openImage : String → RawImg)
    (spec_dir : String) (img : String) : Tensor :=
  transform (openImage (spec_dir ++ "/" ++ img))

/-- Loop body of get_tensors (train.py lines 46-53): for each listed file,
decode and transform the image, and look up `song_types.index(...)` of the part
of the name before the first underscore; `none` models the ValueError escaping
the call. -/
def collectLoop {RawImg Tensor : Type} (transform : RawImg → Tensor) (openImage : String → RawImg)
    (spec_dir : String) : List String → Option (List Tensor × List Nat)
  | [] => some ([], [])
  | img :: rest => do
      let img_tensor := imgVal transform openImage spec_dir img
      let lab ← pyIndex (songTypeOf img) song_types
      let (imgs, labs) ← collectLoop transform openImage spec_dir rest
      some (img_tensor :: imgs, lab :: labs)

/-- get_tensors (train.py lines 39-55): list the split directory, keep the
entries containing ".jpg", and collect image tensors and labels. -/
def get_tensors {RawImg Tensor : Type} (transform : RawImg → Tensor) (env : Env RawImg)
    (path : String) (mode : String) : Option (List Tensor × List Nat) :=
  let spec_dir := osPathJoin path mode
  collectLoop transform env.openImage spec_dir
    ((env.listing spec_dir).filter (fun ele => strIn ".jpg" ele))

/-- The filtered directory listing get_tensors iterates over. -/
def jpgFiles {RawImg : Type} (env : Env RawImg) (path : String) (mode : String) : List String :=
  (env.listing (osPathJoin path mode)).filter (fun ele => strIn ".jpg" ele)

/-- The label part of the get_tensors loop in isolation. -/
def labelsOf : List String → Option (List Nat)
  | [] => some []
  | img :: rest => do
      let lab ← pyIndex (songTypeOf img) song_types
      let labs ← labelsOf rest
      some (lab :: labs)

lemma collectLoop_eq {RawImg Tensor : Type} (t : RawImg → Tensor) (o : String → RawImg)
    (d : String) (l : List String) :
    collectLoop t o d l = (labelsOf l).map (fun labs => (l.map (imgVal t o d), labs)) := by
  induction l with
  | nil => rfl
  | cons img rest ih =>
      cases h1 : pyIndex (songTypeOf img) song_types with
      | none => simp [collectLoop, labelsOf, h1]
      | some lab =>
          cases h2 : labelsOf rest with
          | none => simp [collectLoop, labelsOf, h1, h2, ih]
          | some labs => simp [collectLoop, labelsOf, h1, h2, ih]

lemma pyIndex_eq_none_iff {α : Type} [DecidableEq α] (x : α) (l : List α) :
    pyIndex x l = none ↔ x ∉ l := by
  induction l with
  | nil => simp [pyIndex]
  | cons a l ih =>
      by_cases h : a = x
      · subst h; simp [pyIndex]
      · simp only [pyIndex, if_neg h, Option.map_eq_none', ih, List.mem_cons]
        constructor
        · intro hx hor
          rcases hor with rfl | hmem
          · exact h rfl
          · exact hx hmem
        · intro hx hmem
          exact hx (Or.inr hmem)

lemma pyIndex_some_lt {α : Type} [DecidableEq α] (x : α) (l : List α) (i : Nat)
    (h : pyIndex x l = some i) : i < l.length := by
  induction l generalizing i with
  | nil => simp [pyIndex] at h
  | cons a l ih =>
      by_cases hax : a = x
      · simp [pyIndex, hax] at h
        simp only [List.length_cons]
        omega
      · simp [pyIndex, hax, Option.map_eq_some'] at h
        obtain ⟨j, hj, rfl⟩ := h
        have := ih j hj
        simp only [List.length_cons]
        omega

lemma labelsOf_some_forall₂ (l : List String) (labs : List Nat)
    (h : labelsOf l = some labs) :
    List.Forall₂ (fun img lab => pyIndex (songTypeOf img) song_types = some lab) l labs := by
  induction l generalizing labs with
  | nil =>
      simp [labelsOf] at h
      subst h; exact List.Forall₂.nil
  | cons img rest ih =>
      cases h1 : pyIndex (songTypeOf img) song_types with
      | none => simp [labelsOf, h1] at h
      | some lab =>
          cases h2 : labelsOf rest with
          | none => simp [labelsOf, h1, h2] at h
          | some labs' =>
              simp [labelsOf, h1, h2] at h
              subst h
              exact List.Forall₂.cons h1 (ih labs' h2)

lemma labelsOf_none_of_bad (l : List String) (img : String) (hmem : img ∈ l)
    (hbad : songTypeOf img ∉ song_types) : labelsOf l = none := by
  induction l with
  | nil => cases hmem
  | cons a rest ih =>
      rcases List.mem_cons.mp hmem with rfl | hmem'
      · have : pyIndex (songTypeOf img) song_types = none :=
          (pyIndex_eq_none_iff _ _).mpr hbad
        simp [labelsOf, this]
      · cases h1 : pyIndex (songTypeOf a) song_types with
        | none => simp [labelsOf, h1]
        | some lab => simp [labelsOf, h1, ih hmem']

lemma labelsOf_props (l : List String) (labs : List Nat) (h : labelsOf l = some labs) :
    labs.length = l.length ∧ ∀ lab ∈ labs, lab < song_types.length := by
  induction l generalizing labs with
  | nil =>
      simp [labelsOf] at h; subst h; simp
  | cons img rest ih =>
      cases h1 : pyIndex (songTypeOf img) song_types with
      | none => simp [labelsOf, h1] at h
      | some lab =>
          cases h2 : labelsOf rest with
          | none => simp [labelsOf, h1, h2] at h
          | some labs' =>
              simp [labelsOf, h1, h2] at h
              subst h
              obtain ⟨hlen, hall⟩ := ih labs' h2
              refine ⟨by simp [hlen], ?_⟩
              intro x hx
              rcases List.mem_cons.mp hx with rfl | hx'
              · exact pyIndex_some_lt _ _ _ h1
              · exact hall x hx'

/-- MelSpectrogramDataset (train.py lines 58-68): a thin wrapper over the two
lists returned by get_tensors. -/
structure MelSpectrogramDataset (α : Type) where
  images : List α
  labels : List Nat

/-- Python `__len__`: the length of the stored image list. -/
def MelSpectrogramDataset.len {α : Type} (d : MelSpectrogramDataset α) : Nat :=
  d.images.length

/-- Python `__getitem__`: the image at `idx` paired with the label at `idx` converted to
a long tensor (modelled as `Int`, the value of `torch.tensor(lab, dtype=long)`);
`none` models the IndexError on an out-of-range index. -/
def MelSpectrogramDataset.getitem {α : Type} (d : MelSpectrogramDataset α) (idx : Nat) :
    Option (α × Int) := do
  let img ← d.images[idx]?
  let lab ← d.labels[idx]?
  some (img, Int.ofNat lab)

/-- Abstraction of the deep-learning runtime as used by one_epoch (train.py
lines 71-101): `predictB` is `torch.argmax(model(images), dim=1)` on a batch,
`batchLoss` is `criterion(model(images), labels).item()` for the cross-entropy
criterion, and `sgdStep` is the parameter update performed by
`opt.zero_grad(); loss.backward(); opt.step()` for `optim.SGD(params, lr)`. -/
structure ModelSpec (θ α : Type) where
  predictB : θ → List α → List Int
  batchLoss : θ → List (α × Int) → ℚ
  sgdStep : ℚ → θ → List (α × Int) → θ

/-- Value of `torch.sum(preds == labels).item()` for one batch. -/
def batchCorrect {θ α : Type} (M : ModelSpec θ α) (p : θ) (batch : List (α × Int)) : Nat :=
  ((M.predictB p (batch.map Prod.fst)).zip (batch.map Prod.snd)).countP (fun q => q.1 == q.2)

/-- The accumulator state of the loop inside `run` in one_epoch: current model
parameters and the `losses`, `correct_preds` and `length` variables. -/
structure RunAcc (θ : Type) where
  params : θ
  losses : List ℚ
  correct_preds : Nat
  length : Nat

/-- One iteration of the batch loop of one_epoch (train.py lines 77-91). -/
def stepBatch {θ α : Type} (M : ModelSpec θ α) (lr : ℚ) (isTrain : Bool)
    (acc : RunAcc θ) (batch : List (α × Int)) : RunAcc θ :=
  ⟨if isTrain then M.sgdStep lr acc.params batch else acc.params,
   acc.losses ++ [M.batchLoss acc.params batch],
   acc.correct_preds + batchCorrect M acc.params batch,
   acc.length + batch.length⟩

/-- The dictionary returned by one_epoch, together with the final model
parameters (the in-place mutation of the model). -/
structure EpochResult (θ : Type) where
  loss : ℚ
  accuracy : ℚ
  params : θ

/-- one_epoch (train.py lines 71-101): fold the batch loop over the loader and
return `np.mean(losses)` and `correct_preds / length`; `none` models the
ZeroDivisionError (after the NaN mean on an empty loader) when no sample was
processed.  The optimizer steps exactly when the mode string is "train". -/
def one_epoch {θ α : Type} (M : ModelSpec θ α) (lr : ℚ) (θ0 : θ)
    (loader : List (List (α × Int))) (mode : String) : Option (EpochResult θ) :=
  let isTrain : Bool := mode == "train"
  let fin := loader.foldl (stepBatch M lr isTrain) ⟨θ0, [], 0, 0⟩
  if fin.length = 0 then none
  else some ⟨fin.losses.sum / (fin.losses.length : ℚ),
             (fin.correct_preds : ℚ) / (fin.length : ℚ), fin.params⟩

/-- evaluate (train.py lines 135-143): run one_epoch with mode "test" and return
the loss and accuracy. -/
def evaluate {θ α : Type} (M : ModelSpec θ α) (lr : ℚ) (θp : θ)
    (loader : List (List (α × Int))) : Option (ℚ × ℚ) :=
  (one_epoch M lr θp loader "test").map (fun r => (r.loss, r.accuracy))

/-- Parameter evolution over one batch: a step in train mode, nothing otherwise. -/
def evolveP {θ α : Type} (M : ModelSpec θ α) (lr : ℚ) (isTrain : Bool)
    (p : θ) (b : List (α × Int)) : θ :=
  if isTrain then M.sgdStep lr p b else p

/-- The per-batch losses along the trajectory of the batch loop. -/
def trajLosses {θ α : Type} (M : ModelSpec θ α) (lr : ℚ) (isTrain : Bool) :
    θ → List (List (α × Int)) → List ℚ
  | _, [] => []
  | p, b :: bs => M.batchLoss p b :: trajLosses M lr isTrain (evolveP M lr isTrain p b) bs

/-- The total number of correct predictions along the trajectory of the batch loop. -/
def trajCorrect {θ α : Type} (M : ModelSpec θ α) (lr : ℚ) (isTrain : Bool) :
    θ → List (List (α × Int)) → Nat
  | _, [] => 0
  | p, b :: bs => batchCorrect M p b + trajCorrect M lr isTrain (evolveP M lr isTrain p b) bs

/-- Total number of samples yielded by a loader. -/
def totalLen {α : Type} (loader : List (List α)) : Nat := (loader.map List.length).sum

lemma foldl_stepBatch {θ α : Type} (M : ModelSpec θ α) (lr : ℚ) (it : Bool)
    (bs : List (List (α × Int))) :
    ∀ acc : RunAcc θ,
    bs.foldl (stepBatch M lr it) acc =
      ⟨bs.foldl (evolveP M lr it) acc.params,
       acc.losses ++ trajLosses M lr it acc.params bs,
       acc.correct_preds + trajCorrect M lr it acc.params bs,
       acc.length + totalLen bs⟩ := by
  induction bs with
  | nil => intro acc; simp [trajLosses, trajCorrect, totalLen]
  | cons b bs ih =>
      intro acc
      rw [List.foldl_cons, ih]
      simp [stepBatch, evolveP, trajLosses, trajCorrect, totalLen, Nat.add_assoc]

lemma trajLosses_length {θ α : Type} (M : ModelSpec θ α) (lr : ℚ) (it : Bool) :
    ∀ (p : θ) (bs : List (List (α × Int))), (trajLosses M lr it p bs).length = bs.length := by
  intro p bs
  induction bs generalizing p with
  | nil => rfl
  | cons b bs ih => simp [trajLosses, ih]

lemma batchCorrect_le {θ α : Type} (M : ModelSpec θ α) (p : θ) (b : List (α × Int)) :
    batchCorrect M p b ≤ b.length := by
  calc batchCorrect M p b
      ≤ ((M.predictB p (b.map Prod.fst)).zip (b.map Prod.snd)).length :=
        List.countP_le_length _
    _ ≤ b.length := by simp [List.length_zip]

lemma trajCorrect_le {θ α : Type} (M : ModelSpec θ α) (lr : ℚ) (it : Bool) :
    ∀ (p : θ) (bs : List (List (α × Int))), trajCorrect M lr it p bs ≤ totalLen bs := by
  intro p bs
  induction bs generalizing p with
  | nil => simp [trajCorrect, totalLen]
  | cons b bs ih =>
      simp only [trajCorrect, totalLen, List.map_cons, List.sum_cons]
      have h1 := batchCorrect_le M p b
      have h2 := ih (evolveP M lr it p b)
      simp only [totalLen] at h2
      omega

lemma totalLen_pos {α : Type} (loader : List (List α)) (h1 : loader ≠ [])
    (h2 : ∀ b ∈ loader, b ≠ []) : 0 < totalLen loader := by
  cases loader with
  | nil => exact absurd rfl h1
  | cons b bs =>
      have hb : b ≠ [] := h2 b (List.mem_cons_self b bs)
      have : 0 < b.length := List.length_pos.mpr hb
      simp only [totalLen, List.map_cons, List.sum_cons]
      omega

lemma foldl_evolveP_false {θ α : Type} (M : ModelSpec θ α) (lr : ℚ) :
    ∀ (bs : List (List (α × Int))) (p : θ), bs.foldl (evolveP M lr false) p = p := by
  intro bs
  induction bs with
  | nil => intro p; rfl
  | cons b bs ih => intro p; simp [List.foldl_cons, evolveP, ih]

lemma foldl_evolveP_true {θ α : Type} (M : ModelSpec θ α) (lr : ℚ) :
    ∀ (bs : List (List (α × Int))) (p : θ),
      bs.foldl (evolveP M lr true) p = bs.foldl (fun q b => M.sgdStep lr q b) p := by
  intro bs
  induction bs with
  | nil => intro p; rfl
  | cons b bs ih => intro p; simp [List.foldl_cons, evolveP, ih]

/-- C3: For every loader yielding a nonempty finite sequence of non-empty
batches, one_epoch returns a dictionary whose loss is the arithmetic mean of the
per-batch cross-entropy losses and whose accuracy is the count of samples whose
predicted argmax equals the label divided by the number of samples processed,
hence lies in [0, 1]; in "train" mode it additionally performs one SGD step per
batch (at the given learning rate), and in any other mode the parameters are
untouched. -/
theorem C3_one_epoch {θ α : Type} (M : ModelSpec θ α) (lr : ℚ) (θ0 : θ)
    (loader : List (List (α × Int))) (mode : String)
    (h1 : loader ≠ []) (h2 : ∀ b ∈ loader, b ≠ []) :
    ∃ r, one_epoch M lr θ0 loader mode = some r ∧
      r.loss = (trajLosses M lr (mode == "train") θ0 loader).sum / (loader.length : ℚ) ∧
      r.accuracy = (trajCorrect M lr (mode == "train") θ0 loader : ℚ) / (totalLen loader : ℚ) ∧
      0 ≤ r.accuracy ∧ r.accuracy ≤ 1 ∧
      r.params = (if mode = "train" then loader.foldl (fun q b => M.sgdStep lr q b) θ0 else θ0) := by
  have hpos := totalLen_pos loader h1 h2
  have hfold := foldl_stepBatch M lr (mode == "train") loader (⟨θ0, [], 0, 0⟩ : RunAcc θ)
  refine ⟨⟨(trajLosses M lr (mode == "train") θ0 loader).sum / (loader.length : ℚ),
          (trajCorrect M lr (mode == "train") θ0 loader : ℚ) / (totalLen loader : ℚ),
          loader.foldl (evolveP M lr (mode == "train")) θ0⟩, ?_, rfl, rfl, ?_, ?_, ?_⟩
  · rw [one_epoch]
    rw [hfold]
    simp only [Nat.zero_add]
    rw [if_neg (by omega)]
    simp [trajLosses_length]
  · positivity
  · rw [div_le_one (by exact_mod_cast hpos)]
    exact_mod_cast trajCorrect_le M lr (mode == "train") θ0 loader
  · by_cases hm : mode = "train"
    · simp only [hm, if_pos rfl]
      simp only [show (("train" : String) == "train") = true from rfl]
      exact foldl_evolveP_true M lr loader θ0
    · rw [if_neg hm]
      have hb : (mode == "train") = false := by
        simp [hm]
      rw [hb]
      exact foldl_evolveP_false M lr loader θ0

/-- A concrete tiny model over natural-number parameters used by witnesses. -/
def modelW : ModelSpec Nat Nat :=
  ⟨fun _ xs => xs.map Int.ofNat, fun _ _ => 0, fun _ p _ => p + 1⟩

/-- C3 counterexample: on a loader yielding the empty sequence of batches,
one_epoch does not return a dictionary at all — np.mean of the empty losses
list is NaN and `correct_preds / length` divides by zero — so the claim as
stated, quantified over every finite sequence of non-empty batches, fails at
the empty sequence. -/
theorem C3_counterexample :
    one_epoch modelW 1 0 ([] : List (List (Nat × Int))) "test" = none := rfl

theorem C3_witness :
    ∃ r, one_epoch modelW 1 0 [[(0, 0)], [(1, 1)]] "train" = some r ∧
      r.loss = (trajLosses modelW 1 (("train" : String) == "train") 0 [[(0, 0)], [(1, 1)]]).sum /
        (([[(0, 0)], [(1, 1)]] : List (List (Nat × Int))).length : ℚ) ∧
      r.accuracy = (trajCorrect modelW 1 (("train" : String) == "train") 0 [[(0, 0)], [(1, 1)]] : ℚ) /
        (totalLen [[(0, 0)], [(1, 1)]] : ℚ) ∧
      0 ≤ r.accuracy ∧ r.accuracy ≤ 1 ∧
      r.params = (if ("train" : String) = "train"
        then ([[(0, 0)], [(1, 1)]] : List (List (Nat × Int))).foldl (fun q b => modelW.sgdStep 1 q b) 0
        else 0) :=
  C3_one_epoch modelW 1 0 [[(0, 0)], [(1, 1)]] "train" (by decide) (by decide)

/-- C8: For every model and loader, calling one_epoch (and hence evaluate, which
invokes it with mode "test") with a mode other than "train" leaves the model
parameters unchanged: the evaluation branch never performs an optimizer step. -/
theorem C8_eval_frame {θ α : Type} (M : ModelSpec θ α) (lr : ℚ) (θ0 : θ)
    (loader : List (List (α × Int))) (mode : String)
    (hmode : mode ≠ "train") (r : EpochResult θ)
    (hr : one_epoch M lr θ0 loader mode = some r) : r.params = θ0 := by
  have hb : (mode == "train") = false := by simp [hmode]
  rw [one_epoch] at hr
  rw [hb] at hr
  rw [foldl_stepBatch M lr false loader (⟨θ0, [], 0, 0⟩ : RunAcc θ)] at hr
  by_cases hz : (0 + totalLen loader) = 0
  · rw [if_pos hz] at hr
    cases hr
  · rw [if_neg hz] at hr
    have := (Option.some.injEq _ _).mp hr
    rw [← this]
    exact foldl_evolveP_false M lr loader θ0

theorem C8_witness :
    ∃ r, one_epoch modelW 1 7 [[(0, 0)]] "test" = some r ∧ r.params = 7 :=
  ⟨_, rfl, C8_eval_frame modelW 1 7 [[(0, 0)]] "test" (by decide) _ rfl⟩

/-- One entry of the JSON training log: the six values passed to
`cur_log.push(...)` (train.py line 130). -/
structure LogEntry where
  train_loss : ℚ
  train_acc : ℚ
  val_loss : ℚ
  val_acc : ℚ
  test_loss : ℚ
  test_acc : ℚ

/-- Observable actions of the train function, in program order: a training
epoch, an evaluation on a split, a TensorBoard `add_scalar` call, and a
`cur_log.push` call. -/
inductive TrainEvent where
  | runTrain (epochId : Int)
  | runEval (split : String) (epochId : Int)
  | addScalar (tag : String) (epochId : Int)
  | logPush (epochId : Int)
deriving DecidableEq

/-- The six scalar tags written per epoch (train.py lines 123-128). -/
def scalarTags : List String :=
  ["loss/train", "accuracy/train", "loss/val", "accuracy/val", "loss/test", "accuracy/test"]

/-- The `for epoch in range(epochs)` loop of train (train.py lines 112-130),
threading model parameters, collecting log entries and observable events;
`none` models an exception escaping from one_epoch or evaluate.  The scalar
writes and the log push happen only under `if writer:`. -/
def epochsLoop {θ α : Type} (M : ModelSpec θ α) (lr : ℚ)
    (trainL valL testL : List (List (α × Int))) (writer : Bool) :
    Nat → Nat → θ → Option (θ × List LogEntry × List TrainEvent)
  | 0, _, p => some (p, [], [])
  | n + 1, e, p => do
      let r ← one_epoch M lr p trainL "train"
      let (val_loss, val_acc) ← evaluate M lr r.params valL
      let (test_loss, test_acc) ← evaluate M lr r.params testL
      let (pf, logs, evs) ← epochsLoop M lr trainL valL testL writer n (e + 1) r.params
      some (pf,
        (if writer then [LogEntry.mk r.loss r.accuracy val_loss val_acc test_loss test_acc]
         else []) ++ logs,
        ([TrainEvent.runTrain (Int.ofNat e), TrainEvent.runEval "val" (Int.ofNat e),
          TrainEvent.runEval "test" (Int.ofNat e)] ++
         (if writer then scalarTags.map (fun t => TrainEvent.addScalar t (Int.ofNat e)) ++
            [TrainEvent.logPush (Int.ofNat e)]
          else [])) ++ evs)

/-- train (train.py lines 104-132): optional initial evaluation on val and test
with epoch id -1, then the epoch loop. -/
def train {θ α : Type} (M : ModelSpec θ α) (lr : ℚ)
    (trainL valL testL : List (List (α × Int))) (θ0 : θ) (epochs : Nat)
    (writer eval_first : Bool) : Option (θ × List LogEntry × List TrainEvent) := do
  let initEvs ←
    if eval_first then do
      let _ ← evaluate M lr θ0 valL
      let _ ← evaluate M lr θ0 testL
      pure [TrainEvent.runEval "val" (-1), TrainEvent.runEval "test" (-1)]
    else pure ([] : List TrainEvent)
  let (pf, logs, evs) ← epochsLoop M lr trainL valL testL writer epochs 0 θ0
  some (pf, logs, initEvs ++ evs)

/-- A loader that yields at least one batch, all of them non-empty. -/
def validLoader {α : Type} (l : List (List α)) : Prop := l ≠ [] ∧ ∀ b ∈ l, b ≠ []

lemma one_epoch_isSome {θ α : Type} (M : ModelSpec θ α) (lr : ℚ) (p : θ)
    (l : List (List (α × Int))) (mode : String) (h : validLoader l) :
    ∃ r, one_epoch M lr p l mode = some r := by
  rw [one_epoch]
  rw [foldl_stepBatch M lr (mode == "train") l (⟨p, [], 0, 0⟩ : RunAcc θ)]
  have hpos := totalLen_pos l h.1 h.2
  rw [if_neg (by simp only [Nat.zero_add]; omega)]
  exact ⟨_, rfl⟩

lemma evaluate_isSome {θ α : Type} (M : ModelSpec θ α) (lr : ℚ) (p : θ)
    (l : List (List (α × Int))) (h : validLoader l) :
    ∃ v, evaluate M lr p l = some v := by
  obtain ⟨r, hr⟩ := one_epoch_isSome M lr p l "test" h
  exact ⟨(r.loss, r.accuracy), by rw [evaluate, hr]; rfl⟩

/-- The events of one iteration of the training loop, for stating trace facts. -/
def blockOf (writer : Bool) (e : Nat) : List TrainEvent :=
  [TrainEvent.runTrain (Int.ofNat e), TrainEvent.runEval "val" (Int.ofNat e),
   TrainEvent.runEval "test" (Int.ofNat e)] ++
  (if writer then scalarTags.map (fun t => TrainEvent.addScalar t (Int.ofNat e)) ++
     [TrainEvent.logPush (Int.ofNat e)]
   else [])

lemma epochsLoop_spec {θ α : Type} (M : ModelSpec θ α) (lr : ℚ)
    (T V Te : List (List (α × Int))) (w : Bool)
    (hT : validLoader T) (hV : validLoader V) (hTe : validLoader Te) :
    ∀ (n e : Nat) (p : θ), ∃ pf logs,
      epochsLoop M lr T V Te w n e p =
        some (pf, logs, ((List.range n).map (fun i => e + i)).flatMap (blockOf w)) ∧
      logs.length = (if w then n else 0) := by
  intro n
  induction n with
  | zero =>
      intro e p
      exact ⟨p, [], by simp [epochsLoop], by simp⟩
  | succ n ih =>
      intro e p
      obtain ⟨r, hr⟩ := one_epoch_isSome M lr p T "train" hT
      obtain ⟨⟨val_loss, val_acc⟩, hv⟩ := evaluate_isSome M lr r.params V hV
      obtain ⟨⟨test_loss, test_acc⟩, ht⟩ := evaluate_isSome M lr r.params Te hTe
      obtain ⟨pf, logs, hrec, hlen⟩ := ih (e + 1) r.params
      refine ⟨pf, (if w then [LogEntry.mk r.loss r.accuracy val_loss val_acc test_loss test_acc]
        else []) ++ logs, ?_, ?_⟩
      · rw [epochsLoop]
        simp only [hr, hv, ht, hrec, Option.bind_eq_bind, Option.some_bind]
        refine congrArg some (congrArg _ (congrArg _ ?_))
        rw [List.range_succ_eq_map, List.map_cons, List.flatMap_cons, List.map_map]
        have hmap : (List.range n).map ((fun i => e + i) ∘ Nat.succ) =
            (List.range n).map (fun i => (e + 1) + i) := by
          apply List.map_congr_left
          intro i _
          show e + (i + 1) = (e + 1) + i
          omega
        rw [hmap]
        rfl
      · cases w <;> simp [hlen]

lemma train_spec {θ α : Type} (M : ModelSpec θ α) (lr : ℚ)
    (T V Te : List (List (α × Int))) (θ0 : θ) (epochs : Nat) (w ef : Bool)
    (hT : validLoader T) (hV : validLoader V) (hTe : validLoader Te) :
    ∃ pf logs,
      train M lr T V Te θ0 epochs w ef =
        some (pf, logs,
          (if ef then [TrainEvent.runEval "val" (-1), TrainEvent.runEval "test" (-1)] else []) ++
          (List.range epochs).flatMap (blockOf w)) ∧
      logs.length = (if w then epochs else 0) := by
  obtain ⟨pf, logs, hloop, hlen⟩ := epochsLoop_spec M lr T V Te w hT hV hTe epochs 0 θ0
  have hmap : (List.range epochs).map (fun i => 0 + i) = List.range epochs := by
    have : (List.range epochs).map (fun i => 0 + i) = (List.range epochs).map id := by
      apply List.map_congr_left
      intro i _
      simp
    rw [this, List.map_id]
  rw [hmap] at hloop
  refine ⟨pf, logs, ?_, hlen⟩
  cases ef with
  | false =>
      rw [train]
      simp only [Bool.false_eq_true, if_false, hloop, Option.bind_eq_bind, Option.some_bind,
        Option.pure_def]
  | true =>
      obtain ⟨v1, hv1⟩ := evaluate_isSome M lr θ0 V hV
      obtain ⟨v2, hv2⟩ := evaluate_isSome M lr θ0 Te hTe
      rw [train]
      simp only [if_true, hv1, hv2, hloop, Option.bind_eq_bind, Option.some_bind,
        Option.pure_def]

/-- Recognizer for training-epoch events. -/
def isRunTrain : TrainEvent → Bool
  | TrainEvent.runTrain _ => true
  | _ => false

lemma filter_isRunTrain_blockOf (w : Bool) (e : Nat) :
    (blockOf w e).filter isRunTrain = [TrainEvent.runTrain (Int.ofNat e)] := by
  cases w <;> simp [blockOf, scalarTags, isRunTrain, List.filter]

lemma filter_isRunTrain_flatMap (w : Bool) (l : List Nat) :
    (l.flatMap (blockOf w)).filter isRunTrain =
      l.map (fun e => TrainEvent.runTrain (Int.ofNat e)) := by
  induction l with
  | nil => rfl
  | cons a l ih =>
      rw [List.flatMap_cons, List.filter_append, filter_isRunTrain_blockOf, ih]
      rfl

lemma block_decomp (w : Bool) (n e : Nat) (he : e < n) :
    ∃ l2 r2, (List.range n).flatMap (blockOf w) =
      l2 ++ [TrainEvent.runTrain (Int.ofNat e), TrainEvent.runEval "val" (Int.ofNat e),
             TrainEvent.runEval "test" (Int.ofNat e)] ++ r2 := by
  obtain ⟨k, hk⟩ : ∃ k, n = e + (k + 1) := ⟨n - e - 1, by omega⟩
  subst hk
  rw [List.range_add, List.flatMap_append, List.range_succ_eq_map, List.map_cons,
      List.flatMap_cons]
  refine ⟨(List.range e).flatMap (blockOf w),
    (if w then scalarTags.map (fun t => TrainEvent.addScalar t (Int.ofNat (e + 0))) ++
       [TrainEvent.logPush (Int.ofNat (e + 0))]
     else []) ++
      (((List.range k).map Nat.succ).map (fun x => e + x)).flatMap (blockOf w), ?_⟩
  simp [blockOf, List.append_assoc]

/-- C4: For every non-negative epochs argument (and loaders on which every
epoch returns), train invokes one_epoch in train mode exactly `epochs` times
with epoch ids 0 through epochs-1 in increasing order; after each training
epoch it evaluates once on the validation loader and once on the test loader,
and when eval_first is true it evaluates once on each before any training. -/
theorem C4_train_schedule {θ α : Type} (M : ModelSpec θ α) (lr : ℚ)
    (T V Te : List (List (α × Int))) (θ0 : θ) (epochs : Nat) (writer eval_first : Bool)
    (hT : validLoader T) (hV : validLoader V) (hTe : validLoader Te) :
    ∃ pf logs trace, train M lr T V Te θ0 epochs writer eval_first = some (pf, logs, trace) ∧
      trace.filter isRunTrain =
        (List.range epochs).map (fun e => TrainEvent.runTrain (Int.ofNat e)) ∧
      (∀ e, e < epochs → ∃ l2 r2, trace =
          l2 ++ [TrainEvent.runTrain (Int.ofNat e), TrainEvent.runEval "val" (Int.ofNat e),
                 TrainEvent.runEval "test" (Int.ofNat e)] ++ r2) ∧
      (eval_first = true →
        trace.take 2 = [TrainEvent.runEval "val" (-1), TrainEvent.runEval "test" (-1)]) := by
  obtain ⟨pf, logs, htr, _⟩ := train_spec M lr T V Te θ0 epochs writer eval_first hT hV hTe
  refine ⟨pf, logs, _, htr, ?_, ?_, ?_⟩
  · rw [List.filter_append, filter_isRunTrain_flatMap]
    cases eval_first <;> simp [isRunTrain, List.filter]
  · intro e he
    obtain ⟨l2, r2, hdec⟩ := block_decomp writer epochs e he
    refine ⟨(if eval_first then [TrainEvent.runEval "val" (-1), TrainEvent.runEval "test" (-1)]
      else []) ++ l2, r2, ?_⟩
    rw [hdec]
    simp [List.append_assoc]
  · intro hef
    subst hef
    simp only [if_pos]
    rfl

theorem C4_witness :
    ∃ pf logs trace,
      train modelW 1 [[(0, 0)]] [[(1, 1)]] [[(0, 1)]] 0 2 false true = some (pf, logs, trace) ∧
      trace.filter isRunTrain =
        (List.range 2).map (fun e => TrainEvent.runTrain (Int.ofNat e)) ∧
      (∀ e, e < 2 → ∃ l2 r2, trace =
          l2 ++ [TrainEvent.runTrain (Int.ofNat e), TrainEvent.runEval "val" (Int.ofNat e),
                 TrainEvent.runEval "test" (Int.ofNat e)] ++ r2) ∧
      (true = true →
        trace.take 2 = [TrainEvent.runEval "val" (-1), TrainEvent.runEval "test" (-1)]) :=
  C4_train_schedule modelW 1 [[(0, 0)]] [[(1, 1)]] [[(0, 1)]] 0 2 false true
    ⟨by decide, by decide⟩ ⟨by decide, by decide⟩ ⟨by decide, by decide⟩

/-- The torchvision / vit-pytorch backbones selectable by --id (train.py lines 168-227). -/
inductive Backbone where
  | mobilenet_v3_small
  | resnet18
  | vgg16
  | densenet121
  | shufflenet_v2_x1_0
  | vit
  | vgg19
  | vgg19_bn
  | resnet101
  | resnet50
  | squeezenet1_1
  | googlenet
deriving DecidableEq

/-- Python class name of each backbone, `type(backbone).__name__`, used in the
log-directory and artifact file names. -/
def backboneName : Backbone → String
  | Backbone.mobilenet_v3_small => "MobileNetV3"
  | Backbone.resnet18 => "ResNet"
  | Backbone.vgg16 => "VGG"
  | Backbone.densenet121 => "DenseNet"
  | Backbone.shufflenet_v2_x1_0 => "ShuffleNetV2"
  | Backbone.vit => "ViT"
  | Backbone.vgg19 => "VGG"
  | Backbone.vgg19_bn => "VGG"
  | Backbone.resnet101 => "ResNet"
  | Backbone.resnet50 => "ResNet"
  | Backbone.squeezenet1_1 => "SqueezeNet"
  | Backbone.googlenet => "GoogLeNet"

/-- Backbone selection by integer id (train.py lines 168-227); `.error` models
the KeyError raised by the final else branch. -/
def selectBackbone (id : Int) : Except String Backbone :=
  if id = 0 then Except.ok Backbone.mobilenet_v3_small
  else if id = 1 then Except.ok Backbone.resnet18
  else if id = 2 then Except.ok Backbone.vgg16
  else if id = 3 then Except.ok Backbone.densenet121
  else if id = 4 then Except.ok Backbone.shufflenet_v2_x1_0
  else if id = 5 then Except.ok Backbone.vit
  else if id = 6 then Except.ok Backbone.vgg19
  else if id = 7 then Except.ok Backbone.vgg19_bn
  else if id = 8 then Except.ok Backbone.resnet101
  else if id = 9 then Except.ok Backbone.resnet50
  else if id = 10 then Except.ok Backbone.squeezenet1_1
  else if id = 11 then Except.ok Backbone.googlenet
  else Except.error "Current backbone not supported..."

/-- Layers of the assembled model (train.py lines 232-246). -/
inductive Layer where
  | backboneLayer (b : Backbone)
  | reluLayer
  | batchNorm1dLayer (features : Nat)
  | dropoutLayer (p : ℚ)
  | linearLayer (inFeatures outFeatures : Nat)
deriving DecidableEq

/-- The parsed command-line arguments (train.py lines 147-159). -/
structure Args where
  dropout : ℚ
  epochs : Nat
  lr : ℚ
  id : Int
  metric : String
  pretrained : Bool
  do_train : Bool
  data_dir : String
  batch_size : Nat
  network_version : String
  transforms_version : String

/-- Model assembly on top of the backbone (train.py lines 232-246), including
the `if args.id != 12` guard under which the model variable is assigned;
`none` models the NameError a later use of the unassigned variable would raise. -/
def buildModel (args : Args) (backbone : Backbone) : Option (List Layer) :=
  if args.id ≠ 12 then
    some (if args.network_version = "legacy" then
      [Layer.backboneLayer backbone, Layer.dropoutLayer args.dropout,
       Layer.linearLayer 1000 song_types.length]
    else
      [Layer.backboneLayer backbone, Layer.reluLayer, Layer.batchNorm1dLayer 1000,
       Layer.dropoutLayer args.dropout, Layer.linearLayer 1000 song_types.length])
  else none

/-- The torchvision transform steps composed in train.py lines 249-264. -/
inductive TransformOp where
  | resize (height width : Nat)
  | randomPosterize (bits : Nat) (p : ℚ)
  | colorJitter (brightnessLo brightnessHi : ℚ)
  | toTensor
  | normalize (means stds : List ℚ)
deriving DecidableEq

/-- The legacy transform (train.py lines 249-253). -/
def legacy_transform : List TransformOp :=
  [TransformOp.resize 96 96, TransformOp.toTensor,
   TransformOp.normalize [485/1000, 456/1000, 406/1000] [229/1000, 224/1000, 225/1000]]

/-- The experimental transform (train.py lines 258-264). -/
def experimental_transform : List TransformOp :=
  [TransformOp.resize 96 96, TransformOp.randomPosterize 2 (25/100),
   TransformOp.colorJitter (50/100) 1, TransformOp.toTensor,
   TransformOp.normalize [485/1000, 456/1000, 406/1000] [229/1000, 224/1000, 225/1000]]

/-- Choice of the training transform from --transforms_version (train.py lines 255-264). -/
def mkTrainTransform (tv : String) : List TransformOp :=
  if tv = "legacy" then legacy_transform else experimental_transform

/-- Dataset construction (train.py lines 268-270): the training set uses the
transform selected by --transforms_version, while the val and test sets are
always built with the legacy transform. -/
def buildSets {RawImg Tensor : Type} (applyT : List TransformOp → RawImg → Tensor)
    (env : Env RawImg) (args : Args) :
    Option (MelSpectrogramDataset Tensor × MelSpectrogramDataset Tensor ×
      MelSpectrogramDataset Tensor) := do
  let (ti, tl) ← get_tensors (applyT (mkTrainTransform args.transforms_version)) env
    args.data_dir "train"
  let (vi, vl) ← get_tensors (applyT legacy_transform) env args.data_dir "val"
  let (si, sl) ← get_tensors (applyT legacy_transform) env args.data_dir "test"
  some (⟨ti, tl⟩, ⟨vi, vl⟩, ⟨si, sl⟩)

/-- The datasets and the per-loader shuffle orders drawn from the torch RNG
(abstracted by `shuffle`, a function of the seed, the loader index, and the
dataset length). -/
def splitAndOrder {RawImg Tensor : Type} (applyT : List TransformOp → RawImg → Tensor)
    (shuffle : Nat → Nat → Nat → List Nat) (seed : Nat) (env : Env RawImg) (args : Args) :
    Option ((MelSpectrogramDataset Tensor × MelSpectrogramDataset Tensor ×
      MelSpectrogramDataset Tensor) × (List Nat × List Nat × List Nat)) := do
  let sets ← buildSets applyT env args
  some (sets, (shuffle seed 0 sets.1.len, shuffle seed 1 sets.2.1.len,
    shuffle seed 2 sets.2.2.len))

/-- Fuel-indexed chunking helper. -/
def mkBatchesAux {γ : Type} (bs : Nat) : Nat → List γ → List (List γ)
  | 0, _ => []
  | _, [] => []
  | fuel + 1, a :: l => (a :: l.take (bs - 1)) :: mkBatchesAux bs fuel (l.drop (bs - 1))

/-- Grouping of the shuffled examples into consecutive batches of size
batch_size, the last batch possibly smaller, as DataLoader yields them. -/
def mkBatches {γ : Type} (bs : Nat) (l : List γ) : List (List γ) :=
  mkBatchesAux bs l.length l

/-- A DataLoader over a dataset: fetch each index of the shuffle order through
`__getitem__` and group into batches; `none` models an IndexError. -/
def mkLoader {Tensor : Type} (ds : MelSpectrogramDataset Tensor) (bs : Nat)
    (order : List Nat) : Option (List (List (Tensor × Int))) :=
  (order.mapM ds.getitem).map (mkBatches bs)

/-- Filesystem-visible actions of the driver. -/
inductive DriverEvent where
  | trainEvt (ev : TrainEvent)
  | saveTrainingLog
  | writerClose
  | saveCheckpoint
  | loadCheckpoint
  | saveConfusionMatrix (mode : String)
deriving DecidableEq

/-- Result of a completed run of the `__main__` block. -/
structure DriverOut (θ Tensor : Type) where
  backbone : Backbone
  modelArch : List Layer
  train_set : MelSpectrogramDataset Tensor
  val_set : MelSpectrogramDataset Tensor
  test_set : MelSpectrogramDataset Tensor
  logdir : String
  finalParams : θ
  training_log : List LogEntry
  trace : List DriverEvent

/-- The part of the `__main__` block after backbone selection (train.py lines
229-312): assemble the model, build transforms, datasets and loaders,
optionally train (writing the log, closing the writer, saving the checkpoint),
then produce a confusion matrix for the val and the test split. -/
def mainAfterBackbone {θ RawImg Tensor : Type} (M : ModelSpec θ Tensor)
    (applyT : List TransformOp → RawImg → Tensor)
    (shuffle : Nat → Nat → Nat → List Nat) (θ0 : θ) (args : Args) (env : Env RawImg)
    (backbone : Backbone) : Except String (DriverOut θ Tensor) := do
  let some modelArch := buildModel args backbone
    | throw "NameError: name model is not defined"
  let some (train_set, val_set, test_set) := buildSets applyT env args
    | throw "ValueError: substring not found"
  let some train_loader := mkLoader train_set args.batch_size (shuffle SEED 0 train_set.len)
    | throw "IndexError: list index out of range"
  let some val_loader := mkLoader val_set args.batch_size (shuffle SEED 1 val_set.len)
    | throw "IndexError: list index out of range"
  let some test_loader := mkLoader test_set args.batch_size (shuffle SEED 2 test_set.len)
    | throw "IndexError: list index out of range"
  let logdir := "./logs/" ++ env.today ++ "_" ++ toString env.sysTime ++ "_" ++
    backboneName backbone ++ "_LR_" ++ toString args.lr ++ "EPOCH_" ++ toString args.epochs
  let (doTrace, training_log, finalParams) ←
    if args.do_train then do
      let some (pf, logs, tevs) := train M args.lr train_loader val_loader test_loader θ0
          args.epochs true true
        | throw "ZeroDivisionError: division by zero"
      pure (tevs.map DriverEvent.trainEvt ++
        [DriverEvent.saveTrainingLog, DriverEvent.writerClose, DriverEvent.saveCheckpoint],
        logs, pf)
    else pure ([], [], θ0)
  let cmEvents := [DriverEvent.loadCheckpoint, DriverEvent.saveConfusionMatrix "val",
    DriverEvent.loadCheckpoint, DriverEvent.saveConfusionMatrix "test"]
  pure (DriverOut.mk backbone modelArch train_set val_set test_set logdir finalParams
    training_log (doTrace ++ cmEvents))

/-- The `__main__` block of train.py (lines 146-312): backbone selection (lines
168-227) followed by the rest of the driver. -/
def mainDriver {θ RawImg Tensor : Type} (M : ModelSpec θ Tensor)
    (applyT : List TransformOp → RawImg → Tensor)
    (shuffle : Nat → Nat → Nat → List Nat) (θ0 : θ) (args : Args) (env : Env RawImg) :
    Except String (DriverOut θ Tensor) :=
  (selectBackbone args.id).bind (mainAfterBackbone M applyT shuffle θ0 args env)

lemma exceptBindOk {E A B : Type} (k : A → Except E B) (x : A) :
    Except.ok x >>= k = k x := rfl

/-- C2: For every value of the --id argument outside 0..11 (including the
default -1), the driver raises the KeyError during backbone selection, whatever
the environment and the remaining arguments are — so before any model, dataset,
or loader is constructed; for every id in 0..11 exactly one backbone is
selected and no error is raised at that point. -/
theorem C2_backbone_selection {θ RawImg Tensor : Type} (M : ModelSpec θ Tensor)
    (applyT : List TransformOp → RawImg → Tensor) (shuffle : Nat → Nat → Nat → List Nat)
    (θ0 : θ) (args : Args) (env : Env RawImg) :
    (¬ (0 ≤ args.id ∧ args.id ≤ 11) →
      mainDriver M applyT shuffle θ0 args env =
        Except.error "Current backbone not supported...") ∧
    ((0 ≤ args.id ∧ args.id ≤ 11) → ∃ b, selectBackbone args.id = Except.ok b) ∧
    (∀ b1 b2, selectBackbone args.id = Except.ok b1 →
      selectBackbone args.id = Except.ok b2 → b1 = b2) := by
  refine ⟨?_, ?_, ?_⟩
  · intro h
    have hsel : selectBackbone args.id = Except.error "Current backbone not supported..." := by
      have hne : ∀ k : Int, 0 ≤ k → k ≤ 11 → args.id ≠ k := by
        intro k hk0 hk1 heq
        exact h ⟨by omega, by omega⟩
      rw [selectBackbone, if_neg (hne 0 (by omega) (by omega)),
        if_neg (hne 1 (by omega) (by omega)), if_neg (hne 2 (by omega) (by omega)),
        if_neg (hne 3 (by omega) (by omega)), if_neg (hne 4 (by omega) (by omega)),
        if_neg (hne 5 (by omega) (by omega)), if_neg (hne 6 (by omega) (by omega)),
        if_neg (hne 7 (by omega) (by omega)), if_neg (hne 8 (by omega) (by omega)),
        if_neg (hne 9 (by omega) (by omega)), if_neg (hne 10 (by omega) (by omega)),
        if_neg (hne 11 (by omega) (by omega))]
    rw [mainDriver, hsel]
    rfl
  · rintro ⟨h1, h2⟩
    generalize hg : args.id = n at h1 h2 ⊢
    interval_cases n <;> exact ⟨_, rfl⟩
  · intro b1 b2 h1 h2
    rw [h1] at h2
    exact (Except.ok.injEq _ _).mp h2

/-- Trivial model over unit types for driver-level witnesses. -/
def modelWU : ModelSpec Unit Unit := ⟨fun _ _ => [], fun _ _ => 0, fun _ _ _ => ()⟩

/-- Trivial transform application for driver-level witnesses. -/
def applyW : List TransformOp → Unit → Unit := fun _ _ => ()

/-- Identity shuffle order for driver-level witnesses. -/
def shuffleW : Nat → Nat → Nat → List Nat := fun _ _ n => List.range n

/-- The default argument values of the script. -/
def argsDefault : Args :=
  ⟨1/2, 20, 2/1000, -1, "weighted", false, false, "./melspecgrams/", 4, "legacy", "legacy"⟩

/-- Arguments selecting backbone id 3. -/
def argsId3 : Args :=
  ⟨1/2, 20, 2/1000, 3, "weighted", false, false, "./melspecgrams/", 4, "legacy", "legacy"⟩

/-- Witness environment: a directory with one well-named image and a non-image
file. -/
def envW1 : Env Unit :=
  ⟨fun _ => ["bass house_1.jpg", "readme.txt"], fun _ => (), 0, ""⟩

/-- Witness environment: a directory with an image whose name part before the
first underscore is not a song type. -/
def envW2 : Env Unit :=
  ⟨fun _ => ["slct_1.jpg"], fun _ => (), 0, ""⟩

theorem C2_witness :
    mainDriver modelWU applyW shuffleW () argsDefault envW1 =
      Except.error "Current backbone not supported..." ∧
    ∃ b, selectBackbone argsId3.id = Except.ok b :=
  ⟨(C2_backbone_selection modelWU applyW shuffleW () argsDefault envW1).1 (by decide),
   (C2_backbone_selection modelWU applyW shuffleW () argsId3 envW1).2.1 (by decide)⟩

/-- Replace only the transforms_version argument. -/
def setTV (a : Args) (tv : String) : Args :=
  ⟨a.dropout, a.epochs, a.lr, a.id, a.metric, a.pretrained, a.do_train, a.data_dir,
   a.batch_size, a.network_version, tv⟩

/-- C9: For every value of --transforms_version, the validation and test
datasets are built with the legacy transform, and only the training dataset
depends on --transforms_version: the val and test datasets are identical across
two runs differing only in that flag. -/
theorem C9_val_test_transform_independent {RawImg Tensor : Type}
    (applyT : List TransformOp → RawImg → Tensor) (env : Env RawImg) (args : Args)
    (tv1 tv2 : String) :
    (buildSets applyT env (setTV args tv1)).map (fun s => (s.2.1, s.2.2)) =
      (buildSets applyT env (setTV args tv2)).map (fun s => (s.2.1, s.2.2)) ∧
    (∀ s, buildSets applyT env (setTV args tv1) = some s →
      get_tensors (applyT legacy_transform) env args.data_dir "val" =
        some (s.2.1.images, s.2.1.labels) ∧
      get_tensors (applyT legacy_transform) env args.data_dir "test" =
        some (s.2.2.images, s.2.2.labels)) := by
  have hfact : ∀ (t : RawImg → Tensor) (m : String), get_tensors t env args.data_dir m =
      (labelsOf ((env.listing (osPathJoin args.data_dir m)).filter
        (fun ele => strIn ".jpg" ele))).map
        (fun labs => (((env.listing (osPathJoin args.data_dir m)).filter
          (fun ele => strIn ".jpg" ele)).map
            (imgVal t env.openImage (osPathJoin args.data_dir m)), labs)) :=
    fun t m => by rw [get_tensors, collectLoop_eq]
  constructor
  · cases hT : labelsOf ((env.listing (osPathJoin args.data_dir "train")).filter
        (fun ele => strIn ".jpg" ele)) with
    | none => simp [buildSets, setTV, hfact, hT]
    | some tl =>
        cases hV : labelsOf ((env.listing (osPathJoin args.data_dir "val")).filter
            (fun ele => strIn ".jpg" ele)) with
        | none => simp [buildSets, setTV, hfact, hT, hV]
        | some vl =>
            cases hS : labelsOf ((env.listing (osPathJoin args.data_dir "test")).filter
                (fun ele => strIn ".jpg" ele)) with
            | none => simp [buildSets, setTV, hfact, hT, hV, hS]
            | some sl => simp [buildSets, setTV, hfact, hT, hV, hS]
  · intro s hs
    rw [buildSets] at hs
    simp only [hfact, setTV, Option.bind_eq_bind] at hs
    cases hT : labelsOf ((env.listing (osPathJoin args.data_dir "train")).filter
        (fun ele => strIn ".jpg" ele)) with
    | none => rw [hT] at hs; simp at hs
    | some tl =>
        rw [hT] at hs
        cases hV : labelsOf ((env.listing (osPathJoin args.data_dir "val")).filter
            (fun ele => strIn ".jpg" ele)) with
        | none => rw [hV] at hs; simp at hs
        | some vl =>
            rw [hV] at hs
            cases hS : labelsOf ((env.listing (osPathJoin args.data_dir "test")).filter
                (fun ele => strIn ".jpg" ele)) with
            | none => rw [hS] at hs; simp at hs
            | some sl =>
                rw [hS] at hs
                simp only [Option.map_some', Option.some_bind] at hs
                have hxs := (Option.some.injEq _ _).mp hs
                subst hxs
                constructor <;> simp [hfact, hV, hS]

theorem C9_witness :
    ((buildSets applyW envW1 (setTV argsDefault "experimental")).map
      (fun s => (s.2.1, s.2.2)) =
      (buildSets applyW envW1 (setTV argsDefault "legacy")).map (fun s => (s.2.1, s.2.2))) ∧
    (get_tensors (applyW legacy_transform) envW1 argsDefault.data_dir "val" =
      some (([()] : List Unit), [1]) ∧
     get_tensors (applyW legacy_transform) envW1 argsDefault.data_dir "test" =
      some (([()] : List Unit), [1])) :=
  ⟨(C9_val_test_transform_independent applyW envW1 argsDefault "experimental" "legacy").1,
   (C9_val_test_transform_independent applyW envW1 argsDefault "experimental" "legacy").2
     ⟨⟨[()], [1]⟩, ⟨[()], [1]⟩, ⟨[()], [1]⟩⟩ rfl⟩

/-- C6: Two runs with the same seed and the same directory contents (the same
listings and the same image bytes) produce the same dataset split membership
and the same iteration orders, even when the wall-clock values that differ
between runs (time.time(), date.today()) differ. -/
theorem C6_reproducibility {RawImg Tensor : Type}
    (applyT : List TransformOp → RawImg → Tensor) (shuffle : Nat → Nat → Nat → List Nat)
    (seed1 seed2 : Nat) (env1 env2 : Env RawImg) (args : Args)
    (hseed : seed1 = seed2) (hlist : env1.listing = env2.listing)
    (hopen : env1.openImage = env2.openImage) :
    splitAndOrder applyT shuffle seed1 env1 args = splitAndOrder applyT shuffle seed2 env2 args := by
  cases env1 with
  | mk l1 o1 t1 d1 =>
      cases env2 with
      | mk l2 o2 t2 d2 =>
          simp only at hlist hopen
          subst hseed
          subst hlist
          subst hopen
          rfl

/-- Two run environments sharing directory contents but differing in wall-clock
values, for the C6 witness. -/
def envRun1 : Env Unit := ⟨fun _ => ["future house_1.jpg"], fun _ => (), 11, "2024-01-01"⟩

/-- Second run environment for the C6 witness. -/
def envRun2 : Env Unit := ⟨fun _ => ["future house_1.jpg"], fun _ => (), 99, "2024-01-02"⟩

theorem C6_witness :
    splitAndOrder applyW shuffleW SEED envRun1 argsDefault =
      splitAndOrder applyW shuffleW SEED envRun2 argsDefault :=
  C6_reproducibility applyW shuffleW SEED SEED envRun1 envRun2 argsDefault rfl rfl rfl

/-- Recognizer for an add_scalar event of a given (non-negative) epoch. -/
def isScalarAtT (e : Nat) : TrainEvent → Bool
  | TrainEvent.addScalar _ i => i == Int.ofNat e
  | _ => false

/-- Recognizer for an add_scalar driver event of a given epoch. -/
def isScalarAt (e : Nat) : DriverEvent → Bool
  | DriverEvent.trainEvt tev => isScalarAtT e tev
  | _ => false

/-- Recognizer for the checkpoint save. -/
def isSaveCheckpoint : DriverEvent → Bool
  | DriverEvent.saveCheckpoint => true
  | _ => false

/-- Recognizer for the JSON training-log save. -/
def isSaveTrainingLog : DriverEvent → Bool
  | DriverEvent.saveTrainingLog => true
  | _ => false

/-- Recognizer for the confusion-matrix image save of a given split. -/
def isSaveCM (mode : String) : DriverEvent → Bool
  | DriverEvent.saveConfusionMatrix m => m == mode
  | _ => false

lemma countP_map {β γ : Type} (f : β → γ) (p : γ → Bool) (l : List β) :
    (l.map f).countP p = l.countP (fun b => p (f b)) := by
  induction l with
  | nil => rfl
  | cons a l ih => simp [List.map_cons, List.countP_cons, ih]

lemma countP_flatMap {β γ : Type} (f : β → List γ) (p : γ → Bool) (l : List β) :
    (l.flatMap f).countP p = (l.map (fun a => (f a).countP p)).sum := by
  induction l with
  | nil => rfl
  | cons a l ih => simp [List.flatMap_cons, List.countP_append, ih]

lemma scalarCount_blockOf (e e' : Nat) :
    (blockOf true e').countP (isScalarAtT e) = if e' = e then 6 else 0 := by
  by_cases h : e' = e
  · subst h
    simp [blockOf, scalarTags, isScalarAtT, List.countP_cons, List.countP_nil]
  · have hbe : (Int.ofNat e' == Int.ofNat e) = false := by
      refine beq_eq_false_iff_ne.mpr ?_
      intro hcontra
      exact h (Int.ofNat.inj hcontra)
    simp [blockOf, scalarTags, isScalarAtT, List.countP_cons, List.countP_nil, hbe, h]

lemma sum_if_range (n e : Nat) (he : e < n) :
    ((List.range n).map (fun i => if i = e then 6 else 0)).sum = 6 := by
  induction n with
  | zero => omega
  | succ n ih =>
      rw [List.range_succ, List.map_append, List.sum_append]
      by_cases h : e = n
      · subst h
        have hz : ((List.range e).map (fun i => if i = e then 6 else 0)).sum = 0 := by
          apply List.sum_eq_zero
          intro x hx
          obtain ⟨i, hi, rfl⟩ := List.mem_map.mp hx
          have : i < e := List.mem_range.mp hi
          rw [if_neg (by omega)]
        simp [hz]
      · have he' : e < n := by omega
        rw [ih he']
        simp only [List.map_cons, List.map_nil, List.sum_cons, List.sum_nil]
        rw [if_neg (by omega)]
        omega

/-- C7: When --do_train is given (and the run completes), the driver produces a
trained-model checkpoint and a JSON training log, writes six TensorBoard
scalars per training epoch, pushes exactly one log entry per training epoch,
and saves one confusion-matrix image for each of the val and test splits. -/
theorem C7_artifacts {θ RawImg Tensor : Type} (M : ModelSpec θ Tensor)
    (applyT : List TransformOp → RawImg → Tensor) (shuffle : Nat → Nat → Nat → List Nat)
    (θ0 : θ) (args : Args) (env : Env RawImg) (b : Backbone) (arch : List Layer)
    (sets : MelSpectrogramDataset Tensor × MelSpectrogramDataset Tensor ×
      MelSpectrogramDataset Tensor)
    (Lt Lv Lte : List (List (Tensor × Int)))
    (hdo : args.do_train = true)
    (hb : selectBackbone args.id = Except.ok b)
    (harch : buildModel args b = some arch)
    (hsets : buildSets applyT env args = some sets)
    (hLt : mkLoader sets.1 args.batch_size (shuffle SEED 0 sets.1.len) = some Lt)
    (hLv : mkLoader sets.2.1 args.batch_size (shuffle SEED 1 sets.2.1.len) = some Lv)
    (hLte : mkLoader sets.2.2 args.batch_size (shuffle SEED 2 sets.2.2.len) = some Lte)
    (hvT : validLoader Lt) (hvV : validLoader Lv) (hvTe : validLoader Lte) :
    ∃ out, mainDriver M applyT shuffle θ0 args env = Except.ok out ∧
      out.training_log.length = args.epochs ∧
      (∀ e, e < args.epochs → out.trace.countP (isScalarAt e) = 6) ∧
      out.trace.countP isSaveCheckpoint = 1 ∧
      out.trace.countP isSaveTrainingLog = 1 ∧
      out.trace.countP (isSaveCM "val") = 1 ∧
      out.trace.countP (isSaveCM "test") = 1 := by
  obtain ⟨s1, s2, s3⟩ := sets
  obtain ⟨pf, logs, htr, hlen⟩ :=
    train_spec M args.lr Lt Lv Lte θ0 args.epochs true true hvT hvV hvTe
  have hmain : mainDriver M applyT shuffle θ0 args env =
      Except.ok (DriverOut.mk b arch s1 s2 s3
        ("./logs/" ++ env.today ++ "_" ++ toString env.sysTime ++ "_" ++
          backboneName b ++ "_LR_" ++ toString args.lr ++ "EPOCH_" ++ toString args.epochs)
        pf logs
        ((([TrainEvent.runEval "val" (-1), TrainEvent.runEval "test" (-1)] ++
            (List.range args.epochs).flatMap (blockOf true)).map DriverEvent.trainEvt ++
          [DriverEvent.saveTrainingLog, DriverEvent.writerClose, DriverEvent.saveCheckpoint]) ++
          [DriverEvent.loadCheckpoint, DriverEvent.saveConfusionMatrix "val",
           DriverEvent.loadCheckpoint, DriverEvent.saveConfusionMatrix "test"])) := by
    rw [mainDriver, hb]
    show mainAfterBackbone M applyT shuffle θ0 args env b = _
    rw [mainAfterBackbone]
    simp only [harch, hsets, hLt, hLv, hLte, hdo, htr, if_true, Option.bind_eq_bind,
      Option.some_bind, exceptBindOk]
    rfl
  refine ⟨_, hmain, ?_, ?_, ?_, ?_, ?_, ?_⟩
  · simpa using hlen
  · intro e he
    show (_ : List DriverEvent).countP (isScalarAt e) = 6
    rw [List.countP_append, List.countP_append, countP_map]
    have h1 : ∀ tev : TrainEvent, isScalarAt e (DriverEvent.trainEvt tev) = isScalarAtT e tev :=
      fun tev => rfl
    simp only [h1]
    rw [List.countP_append, countP_flatMap]
    have h2 : (List.range args.epochs).map (fun a => (blockOf true a).countP (isScalarAtT e)) =
        (List.range args.epochs).map (fun i => if i = e then 6 else 0) := by
      apply List.map_congr_left
      intro i _
      exact scalarCount_blockOf e i
    rw [h2, sum_if_range args.epochs e he]
    simp [isScalarAtT, isScalarAt, List.countP_cons, List.countP_nil]
  · show (_ : List DriverEvent).countP isSaveCheckpoint = 1
    rw [List.countP_append, List.countP_append, countP_map]
    simp [isSaveCheckpoint, List.countP_cons, List.countP_nil, List.countP_eq_zero]
  · show (_ : List DriverEvent).countP isSaveTrainingLog = 1
    rw [List.countP_append, List.countP_append, countP_map]
    simp [isSaveTrainingLog, List.countP_cons, List.countP_nil, List.countP_eq_zero]
  · show (_ : List DriverEvent).countP (isSaveCM "val") = 1
    rw [List.countP_append, List.countP_append, countP_map]
    simp [isSaveCM, List.countP_cons, List.countP_nil, List.countP_eq_zero]
  · show (_ : List DriverEvent).countP (isSaveCM "test") = 1
    rw [List.countP_append, List.countP_append, countP_map]
    simp [isSaveCM, List.countP_cons, List.countP_nil, List.countP_eq_zero]

/-- Arguments for the C7 witness: backbone 0, one epoch, batch size 1, with
--do_train. -/
def argsTrain : Args :=
  ⟨1/2, 1, 0, 0, "weighted", false, true, "./melspecgrams/", 1, "legacy", "legacy"⟩

/-- Model architecture produced for argsTrain with backbone 0. -/
def archW : List Layer :=
  [Layer.backboneLayer Backbone.mobilenet_v3_small, Layer.dropoutLayer (1/2),
   Layer.linearLayer 1000 song_types.length]

theorem C7_witness :
    ∃ out, mainDriver modelWU applyW shuffleW () argsTrain envRun1 = Except.ok out ∧
      out.training_log.length = argsTrain.epochs ∧
      (∀ e, e < argsTrain.epochs → out.trace.countP (isScalarAt e) = 6) ∧
      out.trace.countP isSaveCheckpoint = 1 ∧
      out.trace.countP isSaveTrainingLog = 1 ∧
      out.trace.countP (isSaveCM "val") = 1 ∧
      out.trace.countP (isSaveCM "test") = 1 :=
  C7_artifacts modelWU applyW shuffleW () argsTrain envRun1 Backbone.mobilenet_v3_small archW
    (⟨[()], [0]⟩, ⟨[()], [0]⟩, ⟨[()], [0]⟩) [[((), 0)]] [[((), 0)]] [[((), 0)]]
    rfl rfl rfl rfl rfl rfl rfl ⟨by decide, by decide⟩ ⟨by decide, by decide⟩
    ⟨by decide, by decide⟩

/-- C1: For every image file in the chosen split directory whose name contains
".jpg", get_tensors derives its label by string-splitting the filename: it takes
the part of the basename before the first underscore and returns as the label
the index of that substring in song_types; a file whose song-type part is not
one of the four listed strings makes the call fail (ValueError from index). -/
theorem C1_get_tensors_labels {RawImg Tensor : Type} (transform : RawImg → Tensor)
    (env : Env RawImg) (path mode : String) :
    (∀ imgs labs, get_tensors transform env path mode = some (imgs, labs) →
        imgs = (jpgFiles env path mode).map (imgVal transform env.openImage (osPathJoin path mode)) ∧
        List.Forall₂ (fun img lab => pyIndex (songTypeOf img) song_types = some lab)
          (jpgFiles env path mode) labs) ∧
    (∀ img, img ∈ jpgFiles env path mode → songTypeOf img ∉ song_types →
        get_tensors transform env path mode = none) := by
  constructor
  · intro imgs labs h
    rw [get_tensors, collectLoop_eq] at h
    cases h2 : labelsOf ((env.listing (osPathJoin path mode)).filter (fun ele => strIn ".jpg" ele)) with
    | none => rw [h2] at h; simp at h
    | some labs' =>
        rw [h2] at h
        simp at h
        obtain ⟨h1, hlab⟩ := h
        subst hlab
        exact ⟨h1.symm, labelsOf_some_forall₂ _ _ h2⟩
  · intro img hmem hbad
    rw [get_tensors, collectLoop_eq]
    have hm : img ∈ (env.listing (osPathJoin path mode)).filter (fun ele => strIn ".jpg" ele) :=
      hmem
    rw [labelsOf_none_of_bad _ img hm hbad]
    rfl

theorem C1_witness :
    List.Forall₂ (fun img lab => pyIndex (songTypeOf img) song_types = some lab)
      (jpgFiles envW1 "./melspecgrams/" "train") [1] ∧
    get_tensors (fun _ => ()) envW2 "./melspecgrams/" "train" = none :=
  ⟨((C1_get_tensors_labels (fun _ => ()) envW1 "./melspecgrams/" "train").1 [()] [1] rfl).2,
   (C1_get_tensors_labels (fun _ => ()) envW2 "./melspecgrams/" "train").2
     "slct_1.jpg" (by decide) (by decide)⟩

/-- C5: For every MelSpectrogramDataset built from lists images and labels,
`__len__` returns the length of images, and for every in-range index,
`__getitem__ idx` returns the pair of `images[idx]` and `labels[idx]` converted
to a long tensor; the stored lists are unchanged. -/
theorem C5_dataset_access {α : Type} (images : List α) (labels : List Nat) (idx : Nat)
    (h1 : idx < images.length) (h2 : idx < labels.length) :
    (MelSpectrogramDataset.mk images labels).len = images.length ∧
    (MelSpectrogramDataset.mk images labels).getitem idx =
      some (images.get ⟨idx, h1⟩, Int.ofNat (labels.get ⟨idx, h2⟩)) ∧
    (MelSpectrogramDataset.mk images labels).images = images ∧
    (MelSpectrogramDataset.mk images labels).labels = labels := by
  refine ⟨rfl, ?_, rfl, rfl⟩
  simp [MelSpectrogramDataset.getitem, List.getElem?_eq_getElem, h1, h2, List.get_eq_getElem]

theorem C5_witness :
    (MelSpectrogramDataset.mk ["a", "b"] [3, 1]).len = 2 ∧
    (MelSpectrogramDataset.mk ["a", "b"] [3, 1]).getitem 1 =
      some ((["a", "b"].get ⟨1, by decide⟩ : String), Int.ofNat ([3, 1].get ⟨1, by decide⟩)) ∧
    (MelSpectrogramDataset.mk ["a", "b"] [3, 1]).images = ["a", "b"] ∧
    (MelSpectrogramDataset.mk ["a", "b"] [3, 1]).labels = [3, 1] :=
  C5_dataset_access ["a", "b"] [3, 1] 1 (by decide) (by decide)

/-- C10: Every call to get_tensors that returns does so with two lists of equal
length, every returned label is below the length of song_types (which is 4), and
every MelSpectrogramDataset built from its output supports indexed access for
all indices below its length. -/
theorem C10_get_tensors_invariant {RawImg Tensor : Type} (transform : RawImg → Tensor)
    (env : Env RawImg) (path mode : String) (imgs : List Tensor) (labs : List Nat)
    (h : get_tensors transform env path mode = some (imgs, labs)) :
    imgs.length = labs.length ∧
    (∀ lab ∈ labs, lab < song_types.length) ∧
    song_types.length = 4 ∧
    (∀ idx, idx < (MelSpectrogramDataset.mk imgs labs).len →
        ((MelSpectrogramDataset.mk imgs labs).getitem idx).isSome) := by
  rw [get_tensors, collectLoop_eq] at h
  cases h2 : labelsOf ((env.listing (osPathJoin path mode)).filter (fun ele => strIn ".jpg" ele)) with
  | none => rw [h2] at h; simp at h
  | some labs' =>
      rw [h2] at h
      simp at h
      obtain ⟨h1, hlab⟩ := h
      subst hlab
      obtain ⟨hlen, hall⟩ := labelsOf_props _ _ h2
      have hlen' : imgs.length = labs'.length := by
        rw [← h1]; simp [hlen]
      refine ⟨hlen', hall, rfl, ?_⟩
      intro idx hidx
      simp [MelSpectrogramDataset.len] at hidx
      have hi1 : idx < imgs.length := hidx
      have hi2 : idx < labs'.length := hlen' ▸ hidx
      simp [MelSpectrogramDataset.getitem, List.getElem?_eq_getElem, hi1, hi2]

theorem C10_witness :
    (([(), ()] : List Unit).length = ([1, 0] : List Nat).length) ∧
    (∀ lab ∈ ([1, 0] : List Nat), lab < song_types.length) ∧
    song_types.length = 4 ∧
    (∀ idx, idx < (MelSpectrogramDataset.mk ([(), ()] : List Unit) [1, 0]).len →
        ((MelSpectrogramDataset.mk ([(), ()] : List Unit) [1, 0]).getitem idx).isSome) :=
  C10_get_tensors_invariant (fun _ => ())
    (⟨fun _ => ["bass house_1.jpg", "future house_2.jpg"], fun _ => (), 0, ""⟩ : Env Unit)
    "./melspecgrams/" "train" [(), ()] [1, 0] rfl

end HouseX
